import Mathlib

/-!
Formal model of the ETL_PIPELINE_API repository (air-quality ETL pipeline),
embedded shallowly in Lean 4.

Conventions of the embedding:
* pandas nullable float cells are modelled as `Option ℚ` (the transform logic
  only compares, scales and adds values, so exact rational arithmetic is a
  faithful model of the float computations on these operations);
* `pd.NA` / `NaN` cells are `none`;
* a dataframe is a `List` of row structures;
* the fetch and load stages' external effects (HTTP calls, sleeps, database
  inserts) are modelled by oracles giving each attempt's outcome, and the
  sequence of externally visible events is returned as an explicit trace.
-/

namespace ETL

/-! ## transform.py -/

/-- One timestamp cell: its textual rendering together with its 0–23 hour
component (`pandas` exposes the hour via `.dt.hour`). -/
structure Timestamp where
  str : String
  hour : ℕ
deriving DecidableEq, Repr

/-- One row of the combined dataframe in `transform_all`, after the
`pd.to_numeric(..., errors="coerce")` pass: `city`, `time`, and the seven
pollutant columns of `REQUIRED_COLUMNS` (nullable numerics). -/
structure Row where
  city : String
  time : Option Timestamp
  pm10 : Option ℚ
  pm2_5 : Option ℚ
  carbon_monoxide : Option ℚ
  nitrogen_dioxide : Option ℚ
  sulphur_dioxide : Option ℚ
  ozone : Option ℚ
  uv_index : Option ℚ
deriving DecidableEq, Repr

/-- `transform.compute_aqi`: AQI category from PM2.5 (`pd.isna` guard first,
then the threshold ladder). -/
def compute_aqi : Option ℚ → Option String
  | none => none
  | some v =>
    if v ≤ 50 then some "Good"
    else if v ≤ 100 then some "Moderate"
    else if v ≤ 200 then some "Unhealthy"
    else if v ≤ 300 then some "Very Unhealthy"
    else some "Hazardous"

/-- One summand of `compute_severity`: `value * weight` when the cell is
present (`pd.notna`), skipped (0) when the cell is null. -/
def contrib : Option ℚ → ℚ → ℚ
  | none, _ => 0
  | some v, w => v * w

/-- `transform.compute_severity`: weighted sum over the six weighted
pollutants, in the iteration order of the `weights` dict
(pm2_5:5, pm10:3, nitrogen_dioxide:4, sulphur_dioxide:4,
carbon_monoxide:2, ozone:3). -/
def compute_severity (r : Row) : ℚ :=
  contrib r.pm2_5 5 + contrib r.pm10 3 + contrib r.nitrogen_dioxide 4 +
    contrib r.sulphur_dioxide 4 + contrib r.carbon_monoxide 2 + contrib r.ozone 3

/-- `transform.classify_risk`: risk category from the severity cell
(`pd.isna` guard first, then the threshold ladder). -/
def classify_risk : Option ℚ → Option String
  | none => none
  | some s =>
    if s > 400 then some "High Risk"
    else if s > 200 then some "Moderate Risk"
    else some "Low Risk"

/-- Whether every one of the seven pollutant cells of a row is null:
the condition of `combined.dropna(subset=numeric_cols, how="all")`. -/
def allPollutantsNull (r : Row) : Bool :=
  r.pm10.isNone && r.pm2_5.isNone && r.carbon_monoxide.isNone &&
    r.nitrogen_dioxide.isNone && r.sulphur_dioxide.isNone &&
    r.ozone.isNone && r.uv_index.isNone

/-- Whether every one of the six weighted pollutant cells (the inputs of
`compute_severity`; `uv_index` carries no weight) is null. -/
def sixWeightedNull (r : Row) : Bool :=
  r.pm10.isNone && r.pm2_5.isNone && r.carbon_monoxide.isNone &&
    r.nitrogen_dioxide.isNone && r.sulphur_dioxide.isNone && r.ozone.isNone

/-- One transformed record: the row columns plus the derived columns
`AQI`, `severity`, `risk`, `hour` added by `transform_all`.  The derived
columns are nullable dataframe cells, hence `Option`-typed. -/
structure TRow where
  city : String
  time : Option Timestamp
  pm10 : Option ℚ
  pm2_5 : Option ℚ
  carbon_monoxide : Option ℚ
  nitrogen_dioxide : Option ℚ
  sulphur_dioxide : Option ℚ
  ozone : Option ℚ
  uv_index : Option ℚ
  AQI : Option String
  severity : Option ℚ
  risk : Option String
  hour : Option ℕ
deriving DecidableEq, Repr

/-- The feature-engineering block of `transform_all` applied to one retained
row: `AQI` from the `pm2_5` cell, `severity` from the row (always a number),
`risk` from the `severity` cell, `hour` from the `time` cell
(`.dt.hour`, null for a null time). -/
def transformRow (r : Row) : TRow :=
  { city := r.city, time := r.time, pm10 := r.pm10, pm2_5 := r.pm2_5,
    carbon_monoxide := r.carbon_monoxide,
    nitrogen_dioxide := r.nitrogen_dioxide,
    sulphur_dioxide := r.sulphur_dioxide, ozone := r.ozone,
    uv_index := r.uv_index,
    AQI := compute_aqi r.pm2_5,
    severity := some (compute_severity r),
    risk := classify_risk (some (compute_severity r)),
    hour := r.time.map Timestamp.hour }

/-- `transform.transform_all` on the already-concatenated, numeric-coerced
frame: drop the rows whose seven pollutant cells are all null, then add the
derived columns. -/
def transform_all (rows : List Row) : List TRow :=
  (rows.filter (fun r => !allPollutantsNull r)).map transformRow

/-- The spec-side reading of "a null pollutant contributes zero":
the value of a nullable cell with null read as 0. -/
def val0 : Option ℚ → ℚ
  | none => 0
  | some v => v

/-! ## Theorems: transform claims -/

/-- C1: for every pm2_5 value, `compute_aqi` returns exactly one of the five
fixed categories, chosen by the inclusive-upper-bound ladder
(≤50 Good, ≤100 Moderate, ≤200 Unhealthy, ≤300 Very Unhealthy,
else Hazardous); a null pm2_5 yields a null AQI; in particular
AQI(45) = "Good" and AQI(150) = "Unhealthy". -/
theorem compute_aqi_buckets :
    compute_aqi none = none ∧
    compute_aqi (some 45) = some "Good" ∧
    compute_aqi (some 150) = some "Unhealthy" ∧
    ∀ v : ℚ,
      (compute_aqi (some v)).any
        (fun c => c ∈ ["Good", "Moderate", "Unhealthy", "Very Unhealthy",
          "Hazardous"]) = true ∧
      (v ≤ 50 → compute_aqi (some v) = some "Good") ∧
      (50 < v → v ≤ 100 → compute_aqi (some v) = some "Moderate") ∧
      (100 < v → v ≤ 200 → compute_aqi (some v) = some "Unhealthy") ∧
      (200 < v → v ≤ 300 → compute_aqi (some v) = some "Very Unhealthy") ∧
      (300 < v → compute_aqi (some v) = some "Hazardous") := by
  refine ⟨rfl, by norm_num [compute_aqi], by norm_num [compute_aqi], fun v => ?_⟩
  simp only [compute_aqi]
  split_ifs with h1 h2 h3 h4 <;>
    refine ⟨by simp, ?_, ?_, ?_, ?_, ?_⟩ <;> intros <;> first | rfl | linarith

/-- Witness for C1's bucket implications at concrete inputs. -/
theorem compute_aqi_buckets_witness :
    compute_aqi (some 75) = some "Moderate" ∧
    compute_aqi (some 250) = some "Very Unhealthy" ∧
    compute_aqi (some 301) = some "Hazardous" :=
  ⟨((compute_aqi_buckets.2.2.2 75).2.2.1 (by norm_num) (by norm_num)),
   ((compute_aqi_buckets.2.2.2 250).2.2.2.2.1 (by norm_num) (by norm_num)),
   ((compute_aqi_buckets.2.2.2 301).2.2.2.2.2 (by norm_num))⟩

/-- C2: for every non-null severity s, `classify_risk` returns "High Risk"
iff s > 400, "Moderate Risk" iff 200 < s ≤ 400, and "Low Risk" otherwise
(s ≤ 200); boundary values fall into the lower-severity bucket. -/
theorem classify_risk_thresholds :
    ∀ s : ℚ,
      (classify_risk (some s) = some "High Risk" ↔ 400 < s) ∧
      (classify_risk (some s) = some "Moderate Risk" ↔ 200 < s ∧ s ≤ 400) ∧
      (s ≤ 200 → classify_risk (some s) = some "Low Risk") := by
  intro s
  simp only [classify_risk]
  split_ifs with h1 h2
  · exact ⟨⟨fun _ => h1, fun _ => rfl⟩,
      ⟨fun he => absurd he (by simp), fun hs => absurd h1 (not_lt.mpr hs.2)⟩,
      fun hle => absurd h1 (by linarith)⟩
  · exact ⟨⟨fun he => absurd he (by simp), fun hs => absurd hs h1⟩,
      ⟨fun _ => ⟨h2, not_lt.mp h1⟩, fun _ => rfl⟩,
      fun hle => absurd h2 (not_lt.mpr hle)⟩
  · exact ⟨⟨fun he => absurd he (by simp), fun hs => absurd hs h1⟩,
      ⟨fun he => absurd he (by simp), fun hs => absurd hs.1 h2⟩,
      fun _ => rfl⟩

/-- Witness for C2 at a concrete severity. -/
theorem classify_risk_thresholds_witness :
    classify_risk (some 300) = some "Moderate Risk" ∧
    classify_risk (some 200) = some "Low Risk" :=
  ⟨(classify_risk_thresholds 300).2.1.mpr ⟨by norm_num, by norm_num⟩,
   (classify_risk_thresholds 200).2.2 (by norm_num)⟩

/-- The worked example row of the spec: pm2_5=80, pm10=40,
nitrogen_dioxide=20, sulphur_dioxide=10, carbon_monoxide=5, ozone=30. -/
def exampleRow : Row :=
  { city := "Delhi", time := none, pm10 := some 40, pm2_5 := some 80,
    carbon_monoxide := some 5, nitrogen_dioxide := some 20,
    sulphur_dioxide := some 10, ozone := some 30, uv_index := none }

/-- C3: for every row, the severity equals the sum over the six pollutants of
value × weight with weights pm2_5:5, pm10:3, nitrogen_dioxide:4,
sulphur_dioxide:4, carbon_monoxide:2, ozone:3, a null pollutant contributing
zero; on the worked example the severity is 740 and the risk "High Risk". -/
theorem compute_severity_weighted_sum :
    (∀ r : Row,
      compute_severity r =
        5 * val0 r.pm2_5 + 3 * val0 r.pm10 + 4 * val0 r.nitrogen_dioxide +
          4 * val0 r.sulphur_dioxide + 2 * val0 r.carbon_monoxide +
          3 * val0 r.ozone) ∧
    compute_severity exampleRow = 740 ∧
    classify_risk (some (compute_severity exampleRow)) = some "High Risk" := by
  refine ⟨fun r => ?_, by norm_num [compute_severity, exampleRow, contrib],
    by norm_num [compute_severity, exampleRow, contrib, classify_risk]⟩
  unfold compute_severity
  cases r.pm2_5 <;> cases r.pm10 <;> cases r.nitrogen_dioxide <;>
    cases r.sulphur_dioxide <;> cases r.carbon_monoxide <;> cases r.ozone <;>
    simp [contrib, val0] <;> ring

/-! ## Transform invariants (C4, C5, C10) -/

/-- A row where only `uv_index` (the unweighted seventh pollutant) is
present: it survives the `dropna(..., how="all")` step although the six
weighted pollutants are all null. -/
def uvRow : Row :=
  { city := "Hyderabad", time := none, pm10 := none, pm2_5 := none,
    carbon_monoxide := none, nitrogen_dioxide := none, sulphur_dioxide := none,
    ozone := none, uv_index := some 1 }

/-- `compute_severity` as the spec's weighted sum with null-as-zero cells
(shared helper for the claims below). -/
theorem compute_severity_val0 (r : Row) :
    compute_severity r =
      5 * val0 r.pm2_5 + 3 * val0 r.pm10 + 4 * val0 r.nitrogen_dioxide +
        4 * val0 r.sulphur_dioxide + 2 * val0 r.carbon_monoxide +
        3 * val0 r.ozone := by
  unfold compute_severity
  cases r.pm2_5 <;> cases r.pm10 <;> cases r.nitrogen_dioxide <;>
    cases r.sulphur_dioxide <;> cases r.carbon_monoxide <;> cases r.ozone <;>
    simp [contrib, val0] <;> ring

/-- Membership in the transformed frame comes from a retained input row. -/
theorem mem_transform_all {rows : List Row} {t : TRow}
    (ht : t ∈ transform_all rows) :
    ∃ r : Row, r ∈ rows ∧ allPollutantsNull r = false ∧ t = transformRow r := by
  unfold transform_all at ht
  rcases List.mem_map.mp ht with ⟨r, hr, rfl⟩
  rcases List.mem_filter.mp hr with ⟨hmem, hkeep⟩
  exact ⟨r, hmem, by simpa using hkeep, rfl⟩

/-- Not all seven pollutants null ↔ at least one of the seven present. -/
theorem allPollutantsNull_false_iff (r : Row) :
    allPollutantsNull r = false ↔
      (r.pm10.isSome || r.pm2_5.isSome || r.carbon_monoxide.isSome ||
        r.nitrogen_dioxide.isSome || r.sulphur_dioxide.isSome ||
        r.ozone.isSome || r.uv_index.isSome) = true := by
  unfold allPollutantsNull
  cases r.pm10 <;> cases r.pm2_5 <;> cases r.carbon_monoxide <;>
    cases r.nitrogen_dioxide <;> cases r.sulphur_dioxide <;> cases r.ozone <;>
    cases r.uv_index <;> simp

/-- `classify_risk` of a present severity cell is always a present category. -/
theorem classify_risk_some_isSome (s : ℚ) :
    (classify_risk (some s)).isSome = true := by
  simp only [classify_risk]
  split_ifs <;> rfl

/-- `compute_aqi` is null exactly on a null pm2_5 cell. -/
theorem compute_aqi_none_iff (o : Option ℚ) : compute_aqi o = none ↔ o = none := by
  cases o with
  | none => simp [compute_aqi]
  | some v =>
    simp only [compute_aqi]
    split_ifs <;> simp

/-- C4 counterexample: the transform of a row where only `uv_index` is
present yields a record with a null AQI but non-null severity (0) and
non-null risk ("Low Risk"), refuting "no record has a null AQI together
with non-null severity and risk". -/
theorem transform_null_aqi_counterexample :
    (transform_all [uvRow]).map (fun t => (t.AQI, t.severity, t.risk)) =
      [(none, some 0, some "Low Risk")] := by
  norm_num [transform_all, uvRow, allPollutantsNull, transformRow, compute_aqi,
    classify_risk, compute_severity, contrib]

/-- C4 (amended): for every record produced by the transform stage,
severity and risk are always non-null and computed via the §4.2 rules
(severity the weighted null-as-zero sum of the record's own pollutant
cells, risk classified from the severity cell), and AQI is null exactly
when pm2_5 is null, otherwise computed via the §4.2 AQI rule. -/
theorem transform_derived_consistency :
    ∀ (rows : List Row) (t : TRow), t ∈ transform_all rows →
      t.severity =
        some (5 * val0 t.pm2_5 + 3 * val0 t.pm10 + 4 * val0 t.nitrogen_dioxide +
          4 * val0 t.sulphur_dioxide + 2 * val0 t.carbon_monoxide +
          3 * val0 t.ozone) ∧
      t.AQI = compute_aqi t.pm2_5 ∧
      t.risk = classify_risk t.severity ∧
      (t.AQI = none ↔ t.pm2_5 = none) ∧
      t.severity.isSome = true ∧ t.risk.isSome = true := by
  intro rows t ht
  rcases mem_transform_all ht with ⟨r, -, -, rfl⟩
  refine ⟨?_, rfl, rfl, ?_, rfl, ?_⟩
  · simpa [transformRow] using congrArg some (compute_severity_val0 r)
  · simpa [transformRow] using compute_aqi_none_iff r.pm2_5
  · simpa [transformRow] using classify_risk_some_isSome (compute_severity r)

/-- Witness for C4's amended invariant on a concrete transformed record. -/
theorem transform_derived_consistency_witness :
    (transformRow exampleRow).severity =
      some (5 * val0 (transformRow exampleRow).pm2_5 +
        3 * val0 (transformRow exampleRow).pm10 +
        4 * val0 (transformRow exampleRow).nitrogen_dioxide +
        4 * val0 (transformRow exampleRow).sulphur_dioxide +
        2 * val0 (transformRow exampleRow).carbon_monoxide +
        3 * val0 (transformRow exampleRow).ozone) ∧
    (transformRow exampleRow).AQI = compute_aqi (transformRow exampleRow).pm2_5 ∧
    (transformRow exampleRow).risk = classify_risk (transformRow exampleRow).severity ∧
    ((transformRow exampleRow).AQI = none ↔ (transformRow exampleRow).pm2_5 = none) ∧
    (transformRow exampleRow).severity.isSome = true ∧
    (transformRow exampleRow).risk.isSome = true :=
  transform_derived_consistency [exampleRow] (transformRow exampleRow)
    (by simp [transform_all, allPollutantsNull, exampleRow])

/-- Witness for C3's weighted-sum equation on the worked example row. -/
theorem compute_severity_weighted_sum_witness :
    compute_severity exampleRow =
      5 * val0 exampleRow.pm2_5 + 3 * val0 exampleRow.pm10 +
        4 * val0 exampleRow.nitrogen_dioxide +
        4 * val0 exampleRow.sulphur_dioxide +
        2 * val0 exampleRow.carbon_monoxide + 3 * val0 exampleRow.ozone :=
  compute_severity_weighted_sum.1 exampleRow

/-- A valid input row: every present weighted pollutant value is
non-negative (physical concentrations). -/
def validRow (r : Row) : Prop :=
  (∀ v ∈ r.pm2_5, 0 ≤ v) ∧ (∀ v ∈ r.pm10, 0 ≤ v) ∧
    (∀ v ∈ r.nitrogen_dioxide, 0 ≤ v) ∧ (∀ v ∈ r.sulphur_dioxide, 0 ≤ v) ∧
    (∀ v ∈ r.carbon_monoxide, 0 ≤ v) ∧ (∀ v ∈ r.ozone, 0 ≤ v)

/-- A weighted summand is non-negative for a non-negative weight and a
non-negative (or null) cell. -/
theorem contrib_nonneg {o : Option ℚ} {w : ℚ} (hw : 0 ≤ w)
    (h : ∀ v ∈ o, 0 ≤ v) : 0 ≤ contrib o w := by
  cases o with
  | none => simp [contrib]
  | some v => simpa [contrib] using mul_nonneg (h v rfl) hw

/-- C5 counterexample: the row with only `uv_index` present has all six
weighted pollutants null, yet it is not excluded by the drop step —
`compute_severity` is applied to it and yields severity 0 in the output. -/
theorem severity_reached_counterexample :
    sixWeightedNull uvRow = true ∧
    (transform_all [uvRow]).map TRow.severity = [some (compute_severity uvRow)] ∧
    compute_severity uvRow = 0 := by
  refine ⟨rfl, ?_, by simp [compute_severity, uvRow, contrib]⟩
  simp [transform_all, uvRow, allPollutantsNull, transformRow]

/-- C5 (amended): the upstream drop step excludes exactly the rows whose
seven pollutant cells (including `uv_index`) are all null — so every
produced record has at least one of the seven present, but a row whose six
weighted pollutants are null with `uv_index` present still reaches
`compute_severity` — and the severity of any valid (non-negative) row is
non-negative. -/
theorem transform_drop_and_severity_nonneg :
    (∀ (rows : List Row) (t : TRow), t ∈ transform_all rows →
      (t.pm10.isSome || t.pm2_5.isSome || t.carbon_monoxide.isSome ||
        t.nitrogen_dioxide.isSome || t.sulphur_dioxide.isSome ||
        t.ozone.isSome || t.uv_index.isSome) = true) ∧
    (∀ r : Row, validRow r → 0 ≤ compute_severity r) := by
  constructor
  · intro rows t ht
    rcases mem_transform_all ht with ⟨r, -, hkeep, rfl⟩
    simpa [transformRow] using (allPollutantsNull_false_iff r).mp hkeep
  · rintro r ⟨h1, h2, h3, h4, h5, h6⟩
    unfold compute_severity
    have c1 := contrib_nonneg (w := 5) (by norm_num) h1
    have c2 := contrib_nonneg (w := 3) (by norm_num) h2
    have c3 := contrib_nonneg (w := 4) (by norm_num) h3
    have c4 := contrib_nonneg (w := 4) (by norm_num) h4
    have c5 := contrib_nonneg (w := 2) (by norm_num) h5
    have c6 := contrib_nonneg (w := 3) (by norm_num) h6
    linarith

/-- Witness for C5's amended statement on concrete rows. -/
theorem transform_drop_and_severity_nonneg_witness :
    ((transformRow uvRow).pm10.isSome || (transformRow uvRow).pm2_5.isSome ||
      (transformRow uvRow).carbon_monoxide.isSome ||
      (transformRow uvRow).nitrogen_dioxide.isSome ||
      (transformRow uvRow).sulphur_dioxide.isSome ||
      (transformRow uvRow).ozone.isSome ||
      (transformRow uvRow).uv_index.isSome) = true ∧
    0 ≤ compute_severity exampleRow :=
  ⟨transform_drop_and_severity_nonneg.1 [uvRow] (transformRow uvRow)
      (by simp [transform_all, allPollutantsNull, uvRow]),
   transform_drop_and_severity_nonneg.2 exampleRow
      (by refine ⟨?_, ?_, ?_, ?_, ?_, ?_⟩ <;> intro v hv <;>
        simp only [exampleRow, Option.mem_def, Option.some.injEq] at hv <;>
        subst hv <;> norm_num)⟩

/-- C10: for every record retained by the transform stage, severity is a
non-null number and risk a non-null category (the null branch of
`classify_risk` is unreachable on transformer output), even when pm2_5 and
hence AQI are null; the row with only `uv_index` present gets severity 0
and risk "Low Risk". -/
theorem transform_severity_risk_total :
    (∀ (rows : List Row) (t : TRow), t ∈ transform_all rows →
      t.severity.isSome = true ∧ t.risk.isSome = true) ∧
    (transform_all [uvRow]).map (fun t => (t.severity, t.risk)) =
      [(some 0, some "Low Risk")] := by
  constructor
  · intro rows t ht
    rcases mem_transform_all ht with ⟨r, -, -, rfl⟩
    exact ⟨rfl, by simpa [transformRow] using
      classify_risk_some_isSome (compute_severity r)⟩
  · norm_num [transform_all, uvRow, allPollutantsNull, transformRow,
      classify_risk, compute_severity, contrib]

/-- Witness for C10's universal part on a concrete transformed record. -/
theorem transform_severity_risk_total_witness :
    (transformRow uvRow).severity.isSome = true ∧
    (transformRow uvRow).risk.isSome = true :=
  transform_severity_risk_total.1 [uvRow] (transformRow uvRow)
    (by simp [transform_all, allPollutantsNull, uvRow])

/-! ## extract.py: `_fetch_city` retry loop -/

namespace Extract

/-- Default `MAX_RETRIES` of `extract.py`. -/
def MAX_RETRIES : ℕ := 3

/-- The outcome of one attempt of the `while` body of `_fetch_city`:
either the request/parse/save pipeline succeeds (yielding the saved path),
or a `requests.RequestException` is raised, or any other exception is
raised; both exception kinds carry the stringified error. -/
inductive Attempt where
  | ok (raw_path : String)
  | netErr (msg : String)
  | unexpected (msg : String)
deriving DecidableEq, Repr

/-- The error string recorded in `last_error` by a failing attempt
(null for a successful one). -/
def Attempt.failMsg : Attempt → Option String
  | .ok _ => none
  | .netErr m => some m
  | .unexpected m => some m

/-- Whether the attempt raises (either exception kind). -/
def Attempt.isFail (a : Attempt) : Bool := a.failMsg.isSome

/-- Exchange the two exception kinds, keeping the message. -/
def Attempt.swapKind : Attempt → Attempt
  | .ok p => .ok p
  | .netErr m => .unexpected m
  | .unexpected m => .netErr m

/-- Exchange the exception kinds of every attempt of an oracle. -/
def swapOuts (outs : ℕ → Attempt) : ℕ → Attempt := fun k => (outs k).swapKind

/-- An externally visible event of the fetch loop: one upstream HTTP call
(tagged with its 1-based attempt number) or one backoff sleep (seconds). -/
inductive Event where
  | call (attempt : ℕ)
  | sleep (secs : ℕ)
deriving DecidableEq, Repr

/-- The value returned by `_fetch_city`: either
`{city, success="true", raw_path}` or `{city, success="false", error}`. -/
inductive FetchOut where
  | success (city raw_path : String)
  | failure (city : String) (error : Option String)
deriving DecidableEq, Repr

/-- The `while attempt < max_retries` loop of `_fetch_city`, with the
outcome of attempt number `k` given by the oracle `outs k`.  Arguments:
current value of `attempt`, remaining iterations `max_retries - attempt`,
and current `last_error`.  A failing attempt `a` records its error and is
followed by a `sleep (2 ^ (a - 1))` before the loop condition is
re-checked (so also after the final attempt); a successful attempt returns
at once. -/
def fetchGo (city : String) (outs : ℕ → Attempt) :
    ℕ → ℕ → Option String → List Event × FetchOut
  | _, 0, lastError => ([], .failure city lastError)
  | attempt, r + 1, _ =>
    let a := attempt + 1
    match outs a with
    | .ok p => ([.call a], .success city p)
    | .netErr m =>
      let next := fetchGo city outs a r (some m)
      (.call a :: .sleep (2 ^ (a - 1)) :: next.1, next.2)
    | .unexpected m =>
      let next := fetchGo city outs a r (some m)
      (.call a :: .sleep (2 ^ (a - 1)) :: next.1, next.2)

/-- `extract._fetch_city` for one city: run the retry loop from
`attempt = 0` with `last_error = None`, returning the event trace and the
result dict. -/
def fetch_city (city : String) (outs : ℕ → Attempt) (max_retries : ℕ) :
    List Event × FetchOut :=
  fetchGo city outs 0 max_retries none

/-- Whether an event is an upstream HTTP call. -/
def Event.isCall : Event → Bool
  | .call _ => true
  | .sleep _ => false

/-- Number of upstream HTTP calls in a trace. -/
def countCalls (t : List Event) : ℕ := t.countP Event.isCall

/-- Loop invariant for an always-failing oracle: starting at `attempt` with
`r` remaining iterations, the loop issues exactly `r` calls and fails with
the error of attempt `attempt + r` (or the incoming `last_error` when no
iteration remains). -/
theorem fetchGo_allFail (city : String) (outs : ℕ → Attempt)
    (hf : ∀ k, (outs k).isFail = true) :
    ∀ (r attempt : ℕ) (le : Option String),
      countCalls (fetchGo city outs attempt r le).1 = r ∧
      (fetchGo city outs attempt r le).2 =
        .failure city (if r = 0 then le else (outs (attempt + r)).failMsg) := by
  intro r
  induction r with
  | zero => intro attempt le; simp [fetchGo, countCalls]
  | succ n ih =>
    intro attempt le
    have hk := hf (attempt + 1)
    cases ho : outs (attempt + 1) with
    | ok p => rw [ho] at hk; simp [Attempt.isFail, Attempt.failMsg] at hk
    | netErr m =>
      have hih := ih (attempt + 1) (some m)
      constructor
      · have h1 := hih.1
        simp only [countCalls] at h1
        simp [fetchGo, ho, countCalls, List.countP_cons, Event.isCall, h1]
      · simp only [fetchGo, ho]
        rw [hih.2]
        rcases Nat.eq_zero_or_pos n with hn | hn
        · subst hn; simp [ho, Attempt.failMsg]
        · have hne : n ≠ 0 := Nat.pos_iff_ne_zero.mp hn
          simp [hne, Nat.add_assoc, Nat.add_comm 1 n]
    | unexpected m =>
      have hih := ih (attempt + 1) (some m)
      constructor
      · have h1 := hih.1
        simp only [countCalls] at h1
        simp [fetchGo, ho, countCalls, List.countP_cons, Event.isCall, h1]
      · simp only [fetchGo, ho]
        rw [hih.2]
        rcases Nat.eq_zero_or_pos n with hn | hn
        · subst hn; simp [ho, Attempt.failMsg]
        · have hne : n ≠ 0 := Nat.pos_iff_ne_zero.mp hn
          simp [hne, Nat.add_assoc, Nat.add_comm 1 n]

/-- The two exception kinds drive the loop identically. -/
theorem fetchGo_swapKind (city : String) (outs : ℕ → Attempt) :
    ∀ (r attempt : ℕ) (le : Option String),
      fetchGo city (swapOuts outs) attempt r le =
        fetchGo city outs attempt r le := by
  intro r
  induction r with
  | zero => intro attempt le; rfl
  | succ n ih =>
    intro attempt le
    cases ho : outs (attempt + 1) with
    | ok p =>
      have hs : swapOuts outs (attempt + 1) = .ok p := by
        simp [swapOuts, ho, Attempt.swapKind]
      simp only [fetchGo, ho, hs]
    | netErr m =>
      have hs : swapOuts outs (attempt + 1) = .unexpected m := by
        simp [swapOuts, ho, Attempt.swapKind]
      simp only [fetchGo, ho, hs, ih]
    | unexpected m =>
      have hs : swapOuts outs (attempt + 1) = .netErr m := by
        simp [swapOuts, ho, Attempt.swapKind]
      simp only [fetchGo, ho, hs, ih]

/-- C6: for a city whose every attempt fails, `_fetch_city` calls the
upstream exactly `max_retries` times (default `MAX_RETRIES = 3`) and
returns a failure result carrying the final attempt's error message; and
network errors and unexpected exceptions drive the loop identically (the
result and trace are unchanged when the two exception kinds are swapped
message-for-message). -/
theorem fetch_retry_exhaustion :
    (∀ (city : String) (outs : ℕ → Attempt) (n : ℕ),
      (∀ k, (outs k).isFail = true) →
      countCalls (fetch_city city outs n).1 = n ∧
      (1 ≤ n →
        (fetch_city city outs n).2 = .failure city ((outs n).failMsg))) ∧
    (∀ (city : String) (outs : ℕ → Attempt) (n : ℕ),
      fetch_city city (swapOuts outs) n = fetch_city city outs n) ∧
    MAX_RETRIES = 3 := by
  refine ⟨fun city outs n hf => ?_, fun city outs n => ?_, rfl⟩
  · have h := fetchGo_allFail city outs hf n 0 none
    refine ⟨h.1, fun hn => ?_⟩
    rw [fetch_city, h.2, if_neg (by omega)]
    simp
  · exact fetchGo_swapKind city outs n 0 none

/-- Witness for C6 on a concrete always-failing oracle with the default
three retries. -/
theorem fetch_retry_exhaustion_witness :
    countCalls (fetch_city "Delhi" (fun _ => .netErr "timeout") 3).1 = 3 ∧
    (fetch_city "Delhi" (fun _ => .netErr "timeout") 3).2 =
      .failure "Delhi" (some "timeout") :=
  ⟨(fetch_retry_exhaustion.1 "Delhi" (fun _ => .netErr "timeout") 3
      (fun _ => rfl)).1,
   (fetch_retry_exhaustion.1 "Delhi" (fun _ => .netErr "timeout") 3
      (fun _ => rfl)).2 (by norm_num)⟩

/-- C7 counterexample: with the default three retries and an always-failing
oracle, the event trace of `_fetch_city` ends in a backoff sleep of
`2 ^ (3 - 1) = 4` seconds after the final (third) attempt, although no
further attempt follows — refuting "waits occur only between consecutive
attempts". -/
theorem backoff_after_final_attempt_counterexample :
    (fetch_city "Delhi" (fun _ => .netErr "boom") 3).1 =
      [.call 1, .sleep 1, .call 2, .sleep 2, .call 3, .sleep 4] ∧
    ((fetch_city "Delhi" (fun _ => .netErr "boom") 3).1).getLast? =
      some (.sleep 4) ∧
    countCalls (fetch_city "Delhi" (fun _ => .netErr "boom") 3).1 = 3 := by
  refine ⟨rfl, rfl, rfl⟩

/-- After attempts `attempt+1 … attempt+k` all fail, the trace contains the
call of attempt `attempt+k` immediately followed by its backoff sleep of
`2 ^ (attempt+k-1)` seconds. -/
theorem fetchGo_fail_infix (city : String) (outs : ℕ → Attempt) :
    ∀ (k attempt r : ℕ) (le : Option String), 1 ≤ k → k ≤ r →
      (∀ j, 1 ≤ j → j ≤ k → (outs (attempt + j)).isFail = true) →
      [Event.call (attempt + k), Event.sleep (2 ^ (attempt + k - 1))] <:+:
        (fetchGo city outs attempt r le).1 := by
  intro k
  induction k with
  | zero => intro attempt r le h1; omega
  | succ n ih =>
    intro attempt r le h1 hkr hfail
    obtain ⟨r', rfl⟩ : ∃ r', r = r' + 1 := ⟨r - 1, by omega⟩
    have hf1 : (outs (attempt + 1)).isFail = true :=
      hfail 1 (by omega) (by omega)
    rcases n.eq_zero_or_pos with hn | hn
    · subst hn
      cases ho : outs (attempt + 1) with
      | ok p => rw [ho] at hf1; simp [Attempt.isFail, Attempt.failMsg] at hf1
      | netErr m =>
        refine ⟨[], (fetchGo city outs (attempt + 1) r' (some m)).1, ?_⟩
        simp [fetchGo, ho]
      | unexpected m =>
        refine ⟨[], (fetchGo city outs (attempt + 1) r' (some m)).1, ?_⟩
        simp [fetchGo, ho]
    · cases ho : outs (attempt + 1) with
      | ok p => rw [ho] at hf1; simp [Attempt.isFail, Attempt.failMsg] at hf1
      | netErr m =>
        have hinf := ih (attempt + 1) r' (some m) hn (by omega)
          (fun j hj1 hj2 => by
            have e : attempt + 1 + j = attempt + (j + 1) := by omega
            rw [e]
            exact hfail (j + 1) (by omega) (by omega))
        have heq : attempt + 1 + n = attempt + (n + 1) := by omega
        rw [heq] at hinf
        simp only [fetchGo, ho]
        exact List.infix_cons (List.infix_cons hinf)
      | unexpected m =>
        have hinf := ih (attempt + 1) r' (some m) hn (by omega)
          (fun j hj1 hj2 => by
            have e : attempt + 1 + j = attempt + (j + 1) := by omega
            rw [e]
            exact hfail (j + 1) (by omega) (by omega))
        have heq : attempt + 1 + n = attempt + (n + 1) := by omega
        rw [heq] at hinf
        simp only [fetchGo, ho]
        exact List.infix_cons (List.infix_cons hinf)

/-- After attempts `attempt+1 … attempt+k-1` fail and attempt `attempt+k`
succeeds, the trace ends with the call of attempt `attempt+k`: no sleep
follows a successful attempt. -/
theorem fetchGo_success_getLast (city : String) (outs : ℕ → Attempt) :
    ∀ (k attempt r : ℕ) (le : Option String), 1 ≤ k → k ≤ r →
      (∀ j, 1 ≤ j → j < k → (outs (attempt + j)).isFail = true) →
      (outs (attempt + k)).isFail = false →
      (fetchGo city outs attempt r le).1.getLast? =
        some (.call (attempt + k)) := by
  intro k
  induction k with
  | zero => intro attempt r le h1; omega
  | succ n ih =>
    intro attempt r le h1 hkr hfail hsucc
    obtain ⟨r', rfl⟩ : ∃ r', r = r' + 1 := ⟨r - 1, by omega⟩
    rcases n.eq_zero_or_pos with hn | hn
    · subst hn
      cases ho : outs (attempt + 1) with
      | ok p => simp [fetchGo, ho]
      | netErr m => rw [ho] at hsucc; simp [Attempt.isFail, Attempt.failMsg] at hsucc
      | unexpected m => rw [ho] at hsucc; simp [Attempt.isFail, Attempt.failMsg] at hsucc
    · have hf1 : (outs (attempt + 1)).isFail = true :=
        hfail 1 (by omega) (by omega)
      cases ho : outs (attempt + 1) with
      | ok p => rw [ho] at hf1; simp [Attempt.isFail, Attempt.failMsg] at hf1
      | netErr m =>
        have hlast := ih (attempt + 1) r' (some m) hn (by omega)
          (fun j hj1 hj2 => by
            have e : attempt + 1 + j = attempt + (j + 1) := by omega
            rw [e]
            exact hfail (j + 1) (by omega) (by omega))
          (by simpa [Nat.add_assoc, Nat.add_comm 1 n] using hsucc)
        obtain ⟨c, t, hct⟩ :
            ∃ c t, (fetchGo city outs (attempt + 1) r' (some m)).1 = c :: t := by
          cases hcase : (fetchGo city outs (attempt + 1) r' (some m)).1 with
          | nil => rw [hcase] at hlast; simp at hlast
          | cons c t => exact ⟨c, t, rfl⟩
        simp only [fetchGo, ho]
        rw [List.getLast?_cons_cons, hct, List.getLast?_cons_cons, ← hct, hlast]
        congr 2
        omega
      | unexpected m =>
        have hlast := ih (attempt + 1) r' (some m) hn (by omega)
          (fun j hj1 hj2 => by
            have e : attempt + 1 + j = attempt + (j + 1) := by omega
            rw [e]
            exact hfail (j + 1) (by omega) (by omega))
          (by simpa [Nat.add_assoc, Nat.add_comm 1 n] using hsucc)
        obtain ⟨c, t, hct⟩ :
            ∃ c t, (fetchGo city outs (attempt + 1) r' (some m)).1 = c :: t := by
          cases hcase : (fetchGo city outs (attempt + 1) r' (some m)).1 with
          | nil => rw [hcase] at hlast; simp at hlast
          | cons c t => exact ⟨c, t, rfl⟩
        simp only [fetchGo, ho]
        rw [List.getLast?_cons_cons, hct, List.getLast?_cons_cons, ← hct, hlast]
        congr 2
        omega

/-- C7 (amended): during a fetch, every failed attempt k — including the
final one — is immediately followed by a backoff wait of exactly
`2 ^ (k - 1)` seconds (so the wait before the try following failed attempt
k is `2 ^ (k - 1)` seconds), while a successful attempt ends the trace with
its call and no wait after it; the claim's "no wait after the final
attempt" holds only when the final attempt succeeds. -/
theorem fetch_backoff_spec :
    (∀ (city : String) (outs : ℕ → Attempt) (n k : ℕ), 1 ≤ k → k ≤ n →
      (∀ j, 1 ≤ j → j ≤ k → (outs j).isFail = true) →
      [Event.call k, Event.sleep (2 ^ (k - 1))] <:+:
        (fetch_city city outs n).1) ∧
    (∀ (city : String) (outs : ℕ → Attempt) (n k : ℕ), 1 ≤ k → k ≤ n →
      (∀ j, 1 ≤ j → j < k → (outs j).isFail = true) →
      (outs k).isFail = false →
      (fetch_city city outs n).1.getLast? = some (.call k)) := by
  constructor
  · intro city outs n k h1 h2 hf
    simpa using fetchGo_fail_infix city outs k 0 n none h1 h2
      (fun j a b => by simpa using hf j a b)
  · intro city outs n k h1 h2 hf hs
    simpa using fetchGo_success_getLast city outs k 0 n none h1 h2
      (fun j a b => by simpa using hf j a b) (by simpa using hs)

/-- Witness for C7's amended statement: the backoff after failed attempt 2
appears in an always-failing trace, and a trace whose second attempt
succeeds ends with that call. -/
theorem fetch_backoff_spec_witness :
    [Event.call 2, Event.sleep 2] <:+:
      (fetch_city "Delhi" (fun _ => .netErr "boom") 3).1 ∧
    (fetch_city "Mumbai"
        (fun k => if k = 1 then .netErr "x" else .ok "p") 3).1.getLast? =
      some (.call 2) :=
  ⟨by
    have h := fetch_backoff_spec.1 "Delhi" (fun _ => .netErr "boom") 3 2
      (by norm_num) (by norm_num) (fun j _ _ => rfl)
    simpa using h,
   fetch_backoff_spec.2 "Mumbai" (fun k => if k = 1 then .netErr "x" else .ok "p")
      3 2 (by norm_num) (by norm_num)
      (fun j hj1 hj2 => by
        have hj : j = 1 := by omega
        subst hj; rfl)
      (by decide)⟩

end Extract

/-! ## load.py: `load_to_supabase` batching and per-batch retry -/

namespace Load

/-- `load.BATCH_SIZE`. -/
def BATCH_SIZE : ℕ := 200

/-- `load.MAX_RETRIES` (retries after the first failed try). -/
def MAX_RETRIES : ℕ := 2

/-- The batch slices visited by `for start in range(0, total_records,
BATCH_SIZE): df.iloc[start:start + BATCH_SIZE]`: consecutive slices of
`BATCH_SIZE` rows, the last one possibly smaller. -/
def toBatches {α : Type} (l : List α) : List (List α) :=
  if h : l.isEmpty then []
  else l.take BATCH_SIZE :: toBatches (l.drop BATCH_SIZE)
termination_by l.length
decreasing_by
  rw [List.length_drop]
  have h0 : 0 < l.length := by
    cases l with
    | nil => simp at h
    | cons x xs => simp
  simp only [BATCH_SIZE]
  omega

/-- The `while attempt <= MAX_RETRIES` loop for one batch, tried at the
attempt values in the given list (the loop visits `attempt = 0, 1, …,
MAX_RETRIES`, incrementing only on failure): returns how many insert calls
were issued and whether one succeeded. -/
def runInsert (ok : ℕ → Bool) : List ℕ → ℕ × Bool
  | [] => (0, false)
  | a :: rest =>
    if ok a then (1, true)
    else
      let next := runInsert ok rest
      (next.1 + 1, next.2)

/-- What `load_to_supabase` reports and does externally: the row count
carried by each insert call, in order; the final `inserted_count`; and the
total row count of the CSV. -/
structure LoadReport where
  callSizes : List ℕ
  inserted : ℕ
  total : ℕ
deriving DecidableEq, Repr

/-- `load.load_to_supabase` over an already-read dataframe: slice into
batches, insert each with the retry loop (the oracle `ok b a` tells whether
the insert call for batch index `b` at attempt value `a` succeeds), count
the rows of every successful batch. -/
def load_to_supabase {α : Type} (rows : List α) (ok : ℕ → ℕ → Bool) :
    LoadReport :=
  let batches := toBatches rows
  let per := batches.enum.map (fun p =>
    let tries := runInsert (ok p.1) (List.range (MAX_RETRIES + 1))
    (List.replicate tries.1 p.2.length, if tries.2 then p.2.length else 0))
  { callSizes := (per.map Prod.fst).flatten,
    inserted := (per.map Prod.snd).sum,
    total := rows.length }

/-- The batch slices reassemble the input dataset. -/
theorem toBatches_flatten {α : Type} (l : List α) : (toBatches l).flatten = l := by
  rw [toBatches]
  split_ifs with hl
  · simp [List.isEmpty_iff.mp hl]
  · have hlt : (l.drop BATCH_SIZE).length < l.length := by
      rw [List.length_drop]
      have h0 : 0 < l.length := by
        cases l with
        | nil => simp at hl
        | cons x xs => simp
      simp only [BATCH_SIZE]
      omega
    rw [List.flatten_cons, toBatches_flatten (l.drop BATCH_SIZE)]
    exact List.take_append_drop BATCH_SIZE l
termination_by l.length
decreasing_by
  exact hlt

/-- C8: the loader partitions the dataset into consecutive batches of 200
rows (last batch smaller), so 450 rows with every insert succeeding on its
first try issue exactly 3 insert calls carrying 200, 200 and 50 rows, and
the report says 450 of 450 rows inserted; the batches reassemble exactly
the input rows. -/
theorem load_450_three_batches {α : Type} (rows : List α)
    (h : rows.length = 450) :
    (load_to_supabase rows (fun _ _ => true)).callSizes = [200, 200, 50] ∧
    (load_to_supabase rows (fun _ _ => true)).inserted = 450 ∧
    (load_to_supabase rows (fun _ _ => true)).total = 450 ∧
    (toBatches rows).map List.length = [200, 200, 50] ∧
    (toBatches rows).flatten = rows := by
  have hd1 : (rows.drop BATCH_SIZE).length = 250 := by
    rw [List.length_drop, h]
    rfl
  have hd2 : ((rows.drop BATCH_SIZE).drop BATCH_SIZE).length = 50 := by
    rw [List.length_drop, hd1]
    rfl
  have hd3 : ((rows.drop BATCH_SIZE).drop BATCH_SIZE).drop BATCH_SIZE = [] := by
    apply List.eq_nil_of_length_eq_zero
    rw [List.length_drop, hd2]
    rfl
  have h1 : ¬ rows.isEmpty = true := by
    rw [List.isEmpty_iff_length_eq_zero, h]
    omega
  have h2 : ¬ (rows.drop BATCH_SIZE).isEmpty = true := by
    rw [List.isEmpty_iff_length_eq_zero, hd1]
    omega
  have h3 : ¬ ((rows.drop BATCH_SIZE).drop BATCH_SIZE).isEmpty = true := by
    rw [List.isEmpty_iff_length_eq_zero, hd2]
    omega
  have h4 : (((rows.drop BATCH_SIZE).drop BATCH_SIZE).drop BATCH_SIZE).isEmpty = true := by
    rw [hd3]
    rfl
  have hbatches : toBatches rows =
      [rows.take BATCH_SIZE, (rows.drop BATCH_SIZE).take BATCH_SIZE,
        ((rows.drop BATCH_SIZE).drop BATCH_SIZE).take BATCH_SIZE] := by
    rw [toBatches, dif_neg h1, toBatches, dif_neg h2, toBatches, dif_neg h3,
      toBatches, dif_pos h4]
  have ht1 : (rows.take BATCH_SIZE).length = 200 := by
    rw [List.length_take, h]
    rfl
  have ht2 : ((rows.drop BATCH_SIZE).take BATCH_SIZE).length = 200 := by
    rw [List.length_take, hd1]
    rfl
  have ht3 : (((rows.drop BATCH_SIZE).drop BATCH_SIZE).take BATCH_SIZE).length = 50 := by
    rw [List.length_take, hd2]
    rfl
  have hr : runInsert (fun _ => true) (List.range (MAX_RETRIES + 1)) =
      (1, true) := rfl
  have hm : BATCH_SIZE ⊓ (rows.length - (BATCH_SIZE + BATCH_SIZE)) = 50 := by
    rw [h]
    rfl
  have hm1 : BATCH_SIZE ⊓ rows.length = 200 := by
    rw [h]
    rfl
  have hm2 : BATCH_SIZE ⊓ (rows.length - BATCH_SIZE) = 200 := by
    rw [h]
    rfl
  refine ⟨?_, ?_, ?_, ?_, toBatches_flatten rows⟩
  · show ((((toBatches rows).enum.map _).map Prod.fst).flatten) = _
    rw [hbatches]
    simp only [List.enum, List.enumFrom, List.map_cons, List.map_nil, hr]
    simp [ht1, ht2, ht3, hm, hm1, hm2]
  · show ((((toBatches rows).enum.map _).map Prod.snd).sum) = _
    rw [hbatches]
    simp only [List.enum, List.enumFrom, List.map_cons, List.map_nil, hr]
    simp [ht1, ht2, ht3, hm, hm1, hm2]
  · exact h
  · rw [hbatches]
    simp [ht1, ht2, ht3, hm, hm1, hm2]

/-- Witness for C8 on a concrete 450-row dataset. -/
theorem load_450_three_batches_witness :
    (load_to_supabase (List.range 450) (fun _ _ => true)).callSizes =
      [200, 200, 50] ∧
    (load_to_supabase (List.range 450) (fun _ _ => true)).inserted = 450 ∧
    (load_to_supabase (List.range 450) (fun _ _ => true)).total = 450 ∧
    (toBatches (List.range 450)).map List.length = [200, 200, 50] ∧
    (toBatches (List.range 450)).flatten = List.range 450 :=
  load_450_three_batches (List.range 450) (by simp)

end Load

/-! ## CSV staging (transform.py `__main__` writes, load.py re-reads) -/

namespace Csv

/-- The character of one decimal digit. -/
def digitCh : ℕ → Char
  | 0 => '0'
  | 1 => '1'
  | 2 => '2'
  | 3 => '3'
  | 4 => '4'
  | 5 => '5'
  | 6 => '6'
  | 7 => '7'
  | 8 => '8'
  | _ => '9'

/-- Whether a character is a decimal digit. -/
def isDigitCh (c : Char) : Bool := 48 ≤ c.toNat && c.toNat ≤ 57

/-- The value of a digit character. -/
def digitVal (c : Char) : ℕ := c.toNat - 48

/-- Base-10 rendering of a natural number, most significant digit first
(the integer part of pandas' float formatting). -/
def natChars (n : ℕ) : List Char :=
  if n = 0 then ['0'] else ((Nat.digits 10 n).map digitCh).reverse

/-- Parse a non-empty all-digit character run back into a natural number
(what `read_csv`'s numeric conversion does with one digit group). -/
def parseNatChars (cs : List Char) : Option ℕ :=
  if cs.isEmpty || !(cs.all isDigitCh) then none
  else some (cs.foldl (fun a c => a * 10 + digitVal c) 0)

/-- `natChars` left-padded with zeros to width `e` (fraction digits keep
their leading zeros). -/
def natCharsPad (n e : ℕ) : List Char :=
  List.replicate (e - (natChars n).length) '0' ++ natChars n

theorem digitVal_digitCh {d : ℕ} (hd : d < 10) : digitVal (digitCh d) = d := by
  interval_cases d <;> rfl

theorem isDigitCh_digitCh {d : ℕ} (hd : d < 10) :
    isDigitCh (digitCh d) = true := by
  interval_cases d <;> rfl

theorem natChars_all_digits (n : ℕ) : ∀ c ∈ natChars n, isDigitCh c = true := by
  intro c hc
  unfold natChars at hc
  split_ifs at hc with h
  · simp only [List.mem_singleton] at hc
    subst hc
    rfl
  · rw [List.mem_reverse, List.mem_map] at hc
    obtain ⟨d, hd, rfl⟩ := hc
    exact isDigitCh_digitCh (Nat.digits_lt_base (by norm_num) hd)

theorem natChars_ne_nil (n : ℕ) : natChars n ≠ [] := by
  unfold natChars
  split_ifs with h
  · simp
  · simp only [ne_eq, List.reverse_eq_nil_iff, List.map_eq_nil_iff]
    exact Nat.digits_ne_nil_iff_ne_zero.mpr h

theorem foldl_digits (L : List ℕ) (hL : ∀ d ∈ L, d < 10) :
    ∀ acc : ℕ,
      ((L.map digitCh).reverse).foldl (fun a c => a * 10 + digitVal c) acc =
        acc * 10 ^ L.length + Nat.ofDigits 10 L := by
  induction L with
  | nil => intro acc; simp
  | cons d T ih =>
    intro acc
    have hd : d < 10 := hL d (by simp)
    have hT : ∀ x ∈ T, x < 10 := fun x hx => hL x (by simp [hx])
    simp only [List.map_cons, List.reverse_cons, List.foldl_append,
      List.foldl_cons, List.foldl_nil]
    rw [ih hT acc, digitVal_digitCh hd, Nat.ofDigits_cons, List.length_cons]
    ring

theorem natChars_foldl (n : ℕ) :
    (natChars n).foldl (fun a c => a * 10 + digitVal c) 0 = n := by
  unfold natChars
  split_ifs with h
  · subst h
    rfl
  · rw [foldl_digits (Nat.digits 10 n)
      (fun d hd => Nat.digits_lt_base (by norm_num) hd) 0,
      Nat.ofDigits_digits]
    simp

theorem parseNatChars_natChars (n : ℕ) : parseNatChars (natChars n) = some n := by
  have hall : (natChars n).all isDigitCh = true := by
    rw [List.all_eq_true]
    intro c hc
    exact natChars_all_digits n c hc
  have hne : (natChars n).isEmpty = false := by
    rw [List.isEmpty_eq_false]
    exact natChars_ne_nil n
  unfold parseNatChars
  rw [hne, hall]
  simp [natChars_foldl n]

theorem foldl_replicate_zero (k : ℕ) (rest : List Char) :
    (List.replicate k '0' ++ rest).foldl (fun a c => a * 10 + digitVal c) 0 =
      rest.foldl (fun a c => a * 10 + digitVal c) 0 := by
  induction k with
  | zero => simp
  | succ j ih =>
    have h0 : 0 * 10 + digitVal '0' = 0 := rfl
    simp only [List.replicate_succ, List.cons_append, List.foldl_cons, h0]
    exact ih

theorem parseNatChars_pad (n e : ℕ) : parseNatChars (natCharsPad n e) = some n := by
  have hall : (natCharsPad n e).all isDigitCh = true := by
    rw [List.all_eq_true]
    intro c hc
    rw [natCharsPad, List.mem_append] at hc
    rcases hc with hc | hc
    · rw [List.eq_of_mem_replicate hc]
      rfl
    · exact natChars_all_digits n c hc
  have hne : (natCharsPad n e).isEmpty = false := by
    rw [List.isEmpty_eq_false, natCharsPad]
    simp only [ne_eq, List.append_eq_nil, not_and]
    intro _
    exact natChars_ne_nil n
  unfold parseNatChars
  rw [hne, hall]
  rw [natCharsPad, foldl_replicate_zero, natChars_foldl n]
  rfl

theorem natCharsPad_length {n e : ℕ} (h : (natChars n).length ≤ e) :
    (natCharsPad n e).length = e := by
  rw [natCharsPad, List.length_append, List.length_replicate]
  omega

theorem natChars_length_le {n e : ℕ} (he : 0 < e) (h : n < 10 ^ e) :
    (natChars n).length ≤ e := by
  unfold natChars
  split_ifs with h0
  · simpa using he
  · rw [List.length_reverse, List.length_map,
      Nat.digits_len 10 n (by norm_num) h0]
    have := (Nat.lt_pow_iff_log_lt (by norm_num) h0).mp h
    omega

/-- Digit characters are neither the decimal point nor the minus sign. -/
theorem natChars_no_dot (n : ℕ) : ∀ c ∈ natChars n, (c != '.') = true := by
  intro c hc
  have hd := natChars_all_digits n c hc
  simp only [bne_iff_ne, ne_eq]
  intro he
  subst he
  exact absurd hd (by decide)

theorem takeWhile_dropWhile_dot (l r : List Char)
    (hl : ∀ c ∈ l, (c != '.') = true) :
    (l ++ '.' :: r).takeWhile (fun c => c != '.') = l ∧
      (l ++ '.' :: r).dropWhile (fun c => c != '.') = '.' :: r := by
  induction l with
  | nil => exact ⟨rfl, rfl⟩
  | cons a t ih =>
    have ha : (a != '.') = true := hl a (by simp)
    have ht : ∀ c ∈ t, (c != '.') = true := fun c hc => hl c (by simp [hc])
    obtain ⟨ih1, ih2⟩ := ih ht
    constructor
    · simp only [List.cons_append, List.takeWhile_cons, ha, if_true, ih1]
    · simp only [List.cons_append, List.dropWhile_cons, ha, if_true, ih2]

theorem takeWhile_dropWhile_all (l : List Char)
    (hl : ∀ c ∈ l, (c != '.') = true) :
    l.takeWhile (fun c => c != '.') = l ∧
      l.dropWhile (fun c => c != '.') = [] := by
  induction l with
  | nil => exact ⟨rfl, rfl⟩
  | cons a t ih =>
    have ha : (a != '.') = true := hl a (by simp)
    have ht : ∀ c ∈ t, (c != '.') = true := fun c hc => hl c (by simp [hc])
    obtain ⟨ih1, ih2⟩ := ih ht
    constructor
    · simp only [List.takeWhile_cons, ha, if_true, ih1]
    · simp only [List.dropWhile_cons, ha, if_true, ih2]

/-- Whether a rational is exactly representable as a finite decimal with at
most `q.den` fraction digits; every IEEE-754 float value — which is what
the dataframe's numeric cells hold — satisfies this. -/
def DecimalRep (q : ℚ) : Prop := (q * 10 ^ q.den).den = 1

instance (q : ℚ) : Decidable (DecimalRep q) := by
  unfold DecimalRep
  infer_instance

/-- Digits of the unsigned decimal `m / 10 ^ e`: integer part, a decimal
point, then `e` fraction digits (pandas renders a float column's values
with a decimal point). -/
def uratChars (m e : ℕ) : List Char :=
  if e = 0 then natChars m
  else natChars (m / 10 ^ e) ++ '.' :: natCharsPad (m % 10 ^ e) e

/-- Decimal rendering of one rational cell value: sign, then the unsigned
digits with `q.den` fraction digits. -/
def ratChars (q : ℚ) : List Char :=
  if q < 0 then '-' :: uratChars (q * 10 ^ q.den).num.natAbs q.den
  else uratChars (q * 10 ^ q.den).num.natAbs q.den

/-- Parse an unsigned decimal cell: digits, optionally a point and
fraction digits. -/
def parseUratChars (cs : List Char) : Option ℚ :=
  match cs.dropWhile (fun c => c != '.') with
  | [] => (parseNatChars (cs.takeWhile (fun c => c != '.'))).map (fun n => (n : ℚ))
  | _ :: frac =>
    match parseNatChars (cs.takeWhile (fun c => c != '.')),
        parseNatChars frac with
    | some i, some f => some ((i : ℚ) + (f : ℚ) / 10 ^ frac.length)
    | _, _ => none

/-- Parse a signed decimal cell. -/
def parseRatChars (cs : List Char) : Option ℚ :=
  if cs.head? = some '-' then (parseUratChars cs.tail).map (fun q => -q)
  else parseUratChars cs

theorem parseUratChars_uratChars (m e : ℕ) :
    parseUratChars (uratChars m e) = some ((m : ℚ) / 10 ^ e) := by
  unfold uratChars
  split_ifs with he
  · subst he
    obtain ⟨h1, h2⟩ := takeWhile_dropWhile_all (natChars m) (natChars_no_dot m)
    unfold parseUratChars
    rw [h1, h2, parseNatChars_natChars]
    simp
  · obtain ⟨h1, h2⟩ := takeWhile_dropWhile_dot (natChars (m / 10 ^ e))
      (natCharsPad (m % 10 ^ e) e) (natChars_no_dot (m / 10 ^ e))
    have hmod : m % 10 ^ e < 10 ^ e := Nat.mod_lt m (by positivity)
    have hlen : (natCharsPad (m % 10 ^ e) e).length = e :=
      natCharsPad_length
        (natChars_length_le (Nat.pos_of_ne_zero he) hmod)
    unfold parseUratChars
    rw [h1, h2, parseNatChars_natChars]
    simp only [parseNatChars_pad, hlen]
    congr 1
    have hnat : 10 ^ e * (m / 10 ^ e) + m % 10 ^ e = m :=
      Nat.div_add_mod m (10 ^ e)
    have hcast := congrArg (fun x : ℕ => (x : ℚ)) hnat
    push_cast at hcast
    have hne10 : (10:ℚ) ^ e ≠ 0 := by positivity
    field_simp
    linarith [hcast]

theorem uratChars_head_digit (m e : ℕ) {c : Char}
    (hc : (uratChars m e).head? = some c) : isDigitCh c = true := by
  unfold uratChars at hc
  split_ifs at hc with he
  · cases hn : natChars m with
    | nil => exact absurd hn (natChars_ne_nil m)
    | cons a t =>
      rw [hn] at hc
      simp only [List.head?_cons, Option.some.injEq] at hc
      subst hc
      exact natChars_all_digits m a (hn ▸ List.mem_cons_self a t)
  · cases hn : natChars (m / 10 ^ e) with
    | nil => exact absurd hn (natChars_ne_nil _)
    | cons a t =>
      rw [hn] at hc
      simp only [List.cons_append, List.head?_cons, Option.some.injEq] at hc
      subst hc
      exact natChars_all_digits _ a (hn ▸ List.mem_cons_self a t)

theorem parseRatChars_ratChars {q : ℚ} (hq : DecimalRep q) :
    parseRatChars (ratChars q) = some q := by
  have hqe : (((q * 10 ^ q.den).num : ℚ)) = q * 10 ^ q.den :=
    Rat.coe_int_num_of_den_eq_one hq
  have hne10 : (10:ℚ) ^ q.den ≠ 0 := by positivity
  have hqval : q = ((q * 10 ^ q.den).num : ℚ) / 10 ^ q.den := by
    rw [hqe]
    field_simp
  rcases lt_or_ge q 0 with hneg | hpos
  · have hm : (q * 10 ^ q.den).num < 0 := by
      rw [Rat.num_neg]
      apply mul_neg_of_neg_of_pos hneg
      positivity
    unfold ratChars
    rw [if_pos hneg]
    unfold parseRatChars
    have hh : ('-' :: uratChars (q * 10 ^ q.den).num.natAbs q.den).head? =
        some '-' := rfl
    rw [if_pos hh]
    simp only [List.tail_cons]
    rw [parseUratChars_uratChars, Option.map_some']
    congr 1
    rw [Int.cast_natAbs, abs_of_neg hm]
    push_cast
    rw [neg_div, neg_neg]
    exact hqval.symm
  · have hm : 0 ≤ (q * 10 ^ q.den).num := by
      rw [Rat.num_nonneg]
      exact mul_nonneg hpos (by positivity)
    have hhead : (uratChars (q * 10 ^ q.den).num.natAbs q.den).head? ≠
        some '-' := by
      intro hcon
      exact absurd (uratChars_head_digit _ _ hcon) (by decide)
    unfold ratChars
    rw [if_neg (not_lt.mpr hpos)]
    unfold parseRatChars
    rw [if_neg hhead, parseUratChars_uratChars]
    congr 1
    rw [Int.cast_natAbs, abs_of_nonneg hm]
    exact hqval.symm

theorem ratChars_ne_nil (q : ℚ) : ratChars q ≠ [] := by
  unfold ratChars
  split_ifs
  · simp
  · unfold uratChars
    split_ifs
    · exact natChars_ne_nil _
    · simp only [ne_eq, List.append_eq_nil, not_and]
      intro _
      simp

/-- Serialize one nullable numeric cell (`to_csv`: a null cell is empty, a
number is rendered in decimal). -/
def encOptQ : Option ℚ → String
  | none => ""
  | some q => String.mk (ratChars q)

/-- Read one nullable numeric cell back (`read_csv`: an empty cell is null,
otherwise the decimal is parsed; a malformed cell fails). -/
def decOptQ (s : String) : Option (Option ℚ) :=
  if s = "" then some none
  else (parseRatChars s.data).map some

/-- Serialize one nullable categorical/string cell. -/
def encOptStr : Option String → String
  | none => ""
  | some s => s

/-- Read one nullable categorical/string cell back. -/
def decOptStr (s : String) : Option (Option String) :=
  if s = "" then some none else some (some s)

/-- Serialize the nullable integer `hour` cell. -/
def encOptNat : Option ℕ → String
  | none => ""
  | some n => String.mk (natChars n)

/-- Read the nullable integer `hour` cell back. -/
def decOptNat (s : String) : Option (Option ℕ) :=
  if s = "" then some none
  else (parseNatChars s.data).map some

/-- Read a mandatory string cell (`city`, `time`) back. -/
def decStr (s : String) : Option String :=
  if s = "" then none else some s

/-- One staged CSV record, in the column order written by `transform.py`'s
`__main__` (the `REQUIRED_COLUMNS`, then the derived columns).  The
timestamp is carried by its rendered text — exactly the value that
`load.py`'s `pd.read_csv` reads back for the `time` column. -/
structure CsvRecord where
  city : String
  time : String
  pm10 : Option ℚ
  pm2_5 : Option ℚ
  carbon_monoxide : Option ℚ
  nitrogen_dioxide : Option ℚ
  sulphur_dioxide : Option ℚ
  ozone : Option ℚ
  uv_index : Option ℚ
  AQI : Option String
  severity : Option ℚ
  risk : Option String
  hour : Option ℕ
deriving DecidableEq, Repr

/-- `df.to_csv(OUTPUT_FILE, index=False)`: the thirteen cell strings of one
record, in column order. -/
def writeRecord (r : CsvRecord) : List String :=
  [r.city, r.time, encOptQ r.pm10, encOptQ r.pm2_5,
    encOptQ r.carbon_monoxide, encOptQ r.nitrogen_dioxide,
    encOptQ r.sulphur_dioxide, encOptQ r.ozone, encOptQ r.uv_index,
    encOptStr r.AQI, encOptQ r.severity, encOptStr r.risk,
    encOptNat r.hour]

/-- `pd.read_csv(csv_path)`: type the thirteen cells of one data line back
into a record (an empty cell is null; a malformed line yields no record). -/
def readRecord : List String → Option CsvRecord
  | [c0, c1, c2, c3, c4, c5, c6, c7, c8, c9, c10, c11, c12] =>
    (decStr c0).bind fun city =>
    (decStr c1).bind fun time =>
    (decOptQ c2).bind fun pm10 =>
    (decOptQ c3).bind fun pm2_5 =>
    (decOptQ c4).bind fun carbon_monoxide =>
    (decOptQ c5).bind fun nitrogen_dioxide =>
    (decOptQ c6).bind fun sulphur_dioxide =>
    (decOptQ c7).bind fun ozone =>
    (decOptQ c8).bind fun uv_index =>
    (decOptStr c9).bind fun AQI =>
    (decOptQ c10).bind fun severity =>
    (decOptStr c11).bind fun risk =>
    (decOptNat c12).bind fun hour =>
    some ⟨city, time, pm10, pm2_5, carbon_monoxide, nitrogen_dioxide,
      sulphur_dioxide, ozone, uv_index, AQI, severity, risk, hour⟩
  | _ => none

/-- The §3 record well-formedness the round-trip relies on: `city` and
`time` are non-empty, present categorical cells are non-empty strings, and
every numeric cell holds a finite-decimal (float-representable) value. -/
def WellFormed (r : CsvRecord) : Prop :=
  r.city ≠ "" ∧ r.time ≠ "" ∧ r.AQI ≠ some "" ∧ r.risk ≠ some "" ∧
    (∀ q ∈ r.pm10, DecimalRep q) ∧ (∀ q ∈ r.pm2_5, DecimalRep q) ∧
    (∀ q ∈ r.carbon_monoxide, DecimalRep q) ∧
    (∀ q ∈ r.nitrogen_dioxide, DecimalRep q) ∧
    (∀ q ∈ r.sulphur_dioxide, DecimalRep q) ∧
    (∀ q ∈ r.ozone, DecimalRep q) ∧ (∀ q ∈ r.uv_index, DecimalRep q) ∧
    (∀ q ∈ r.severity, DecimalRep q)

theorem decOptQ_encOptQ {o : Option ℚ} (h : ∀ q ∈ o, DecimalRep q) :
    decOptQ (encOptQ o) = some o := by
  cases o with
  | none => rfl
  | some q =>
    have hne : String.mk (ratChars q) ≠ "" := by
      intro he
      exact absurd (congrArg String.data he) (ratChars_ne_nil q)
    unfold encOptQ decOptQ
    rw [if_neg hne,
      show (String.mk (ratChars q)).data = ratChars q from rfl,
      parseRatChars_ratChars (h q rfl)]
    rfl

theorem decOptStr_encOptStr {o : Option String} (h : o ≠ some "") :
    decOptStr (encOptStr o) = some o := by
  cases o with
  | none => rfl
  | some s =>
    have hs : s ≠ "" := fun he => h (by rw [he])
    unfold encOptStr decOptStr
    rw [if_neg hs]

theorem decOptNat_encOptNat (o : Option ℕ) :
    decOptNat (encOptNat o) = some o := by
  cases o with
  | none => rfl
  | some n =>
    have hne : String.mk (natChars n) ≠ "" := by
      intro he
      exact absurd (congrArg String.data he) (natChars_ne_nil n)
    unfold encOptNat decOptNat
    rw [if_neg hne,
      show (String.mk (natChars n)).data = natChars n from rfl,
      parseNatChars_natChars n]
    rfl

theorem decStr_of_ne {s : String} (h : s ≠ "") : decStr s = some s := by
  unfold decStr
  rw [if_neg h]

/-- C9: a well-formed record written to the staged CSV by the transform
stage and re-read by the load stage yields identical city, time,
pollutant, AQI, severity, risk and hour values: the CSV round-trip is the
identity on records. -/
theorem csv_round_trip (r : CsvRecord) (h : WellFormed r) :
    readRecord (writeRecord r) = some r := by
  obtain ⟨h0, h1, h9, h11, hp1, hp2, hp3, hp4, hp5, hp6, hp7, hsev⟩ := h
  show ((decStr r.city).bind _) = some r
  rw [decStr_of_ne h0, decStr_of_ne h1, decOptQ_encOptQ hp1,
    decOptQ_encOptQ hp2, decOptQ_encOptQ hp3, decOptQ_encOptQ hp4,
    decOptQ_encOptQ hp5, decOptQ_encOptQ hp6, decOptQ_encOptQ hp7,
    decOptStr_encOptStr h9, decOptQ_encOptQ hsev, decOptStr_encOptStr h11,
    decOptNat_encOptNat r.hour]
  rfl

/-- A concrete staged record (city Delhi, one hourly reading). -/
def sampleRecord : CsvRecord :=
  { city := "Delhi", time := "2025-01-01 10:00:00",
    pm10 := some 40, pm2_5 := some 80, carbon_monoxide := some 5,
    nitrogen_dioxide := some 20, sulphur_dioxide := none, ozone := some 30,
    uv_index := none, AQI := some "Good", severity := some 740,
    risk := some "High Risk", hour := some 10 }

/-- Witness for C9 on a concrete record. -/
theorem csv_round_trip_witness :
    readRecord (writeRecord sampleRecord) = some sampleRecord :=
  csv_round_trip sampleRecord
    (by
      refine ⟨by decide, by decide, by decide, by decide,
        ?_, ?_, ?_, ?_, ?_, ?_, ?_, ?_⟩ <;>
        intro q hq <;>
        simp only [sampleRecord, Option.mem_def, Option.some.injEq] at hq <;>
        first
          | exact absurd hq (by simp)
          | (subst hq
             unfold DecimalRep
             norm_num [Rat.den_ofNat]))

end Csv

end ETL
